import Mathlib

/-!
Verification of the brainunit dimensional-analysis core.

The repository ships its core (Dimension, Quantity, Unit, formatting)
outside of the documentation tree; only the documentation notebooks are
available here.  Following the specification (spec.md sections 3, 4, 6, 7)
and the concrete behaviours recorded in the notebooks, we build a shallow
embedding of the engine: dimensions are seven-tuples of rational exponents,
the interning registry is explicit state (a list of dimensions with the
index playing the role of object identity), quantities pair a magnitude
(stored in base SI units, as the notebooks show) with a dimension, units
carry a power-of-ten scale, and the formatter performs conversion and the
best-unit search.
-/

namespace Brainunit

/-- Modelled from the spec: the `Dimension` class of the core library (not
present under the documentation tree).  Seven rational exponents over the
SI base quantities, in the keyword order used by
`get_or_create_dimension(m=.., kg=.., s=.., A=.., K=.., mol=.., cd=..)`. -/
structure Dimension where
  m : ℚ
  kg : ℚ
  s : ℚ
  A : ℚ
  K : ℚ
  mol : ℚ
  cd : ℚ
deriving DecidableEq, Repr

/-- The all-zero exponent vector: the unique dimensionless value. -/
def Dimension.none : Dimension := ⟨0, 0, 0, 0, 0, 0, 0⟩

/-- Modelled from the spec: dimension multiplication is the exponent-wise
sum (`Dimension.__mul__`). -/
def Dimension.mul (a b : Dimension) : Dimension :=
  ⟨a.m + b.m, a.kg + b.kg, a.s + b.s, a.A + b.A, a.K + b.K,
   a.mol + b.mol, a.cd + b.cd⟩

/-- Modelled from the spec: dimension division is the exponent-wise
difference (`Dimension.__div__`). -/
def Dimension.div (a b : Dimension) : Dimension :=
  ⟨a.m - b.m, a.kg - b.kg, a.s - b.s, a.A - b.A, a.K - b.K,
   a.mol - b.mol, a.cd - b.cd⟩

/-- Modelled from the spec: dimension power scales every exponent
(`Dimension.__pow__`); the exponent may be fractional. -/
def Dimension.pow (a : Dimension) (p : ℚ) : Dimension :=
  ⟨a.m * p, a.kg * p, a.s * p, a.A * p, a.K * p, a.mol * p, a.cd * p⟩

/-- Exponent-wise sum of two exponent tuples (the `d1+d2` of the spec's
interning law). -/
def Dimension.add (a b : Dimension) : Dimension := Dimension.mul a b

/-- The process-wide interning registry: a map from exponent tuple to the
canonical instance, modelled as an append-only list.  The position of an
entry is its identity (the spec's "identical shared instance"). -/
abbrev DimRegistry := List Dimension

/-- Index of the first registry entry equal to `d`, if any. -/
def lookupDim : DimRegistry → Dimension → Option Nat
  | [], _ => Option.none
  | e :: rest, d =>
    if e = d then some 0 else (lookupDim rest d).map (· + 1)

/-- Modelled from the spec: `get_or_create_dimension` of the core library.
Returns the identity handle of the canonical instance, the stored instance
itself, and the (possibly extended) registry; a hit returns the existing
entry, a miss appends `d`. -/
def get_or_create_dimension (reg : DimRegistry) (d : Dimension) :
    Nat × Dimension × DimRegistry :=
  match lookupDim reg d with
  | some i => (i, reg.getD i d, reg)
  | Option.none => (reg.length, d, reg ++ [d])

/-- Modelled from the spec: the error taxonomy of section 7.  The four
conditions are distinct constructors; the dimension mismatch carries both
operand dimensions, the aggregation mismatch is a separate condition. -/
inductive UnitError where
  | dimMismatch (d1 d2 : Dimension)
  | aggMismatch
  | invalidScaleSymbol (sym : String)
  | invalidConstruction
deriving DecidableEq, Repr

/-- The numeric payload delegated to the array backend: a scalar or a
one-dimensional array of rationals (shape/dtype are opaque to the spec). -/
inductive Mag where
  | scalar (x : ℚ)
  | arr (xs : List ℚ)
deriving DecidableEq, Repr

/-- Backend elementwise addition with scalar broadcasting. -/
def Mag.add : Mag → Mag → Mag
  | .scalar x, .scalar y => .scalar (x + y)
  | .scalar x, .arr ys => .arr (ys.map (x + ·))
  | .arr xs, .scalar y => .arr (xs.map (· + y))
  | .arr xs, .arr ys => .arr (List.zipWith (· + ·) xs ys)

/-- Backend elementwise subtraction with scalar broadcasting. -/
def Mag.sub : Mag → Mag → Mag
  | .scalar x, .scalar y => .scalar (x - y)
  | .scalar x, .arr ys => .arr (ys.map (x - ·))
  | .arr xs, .scalar y => .arr (xs.map (· - y))
  | .arr xs, .arr ys => .arr (List.zipWith (· - ·) xs ys)

/-- Backend elementwise multiplication with scalar broadcasting. -/
def Mag.mul : Mag → Mag → Mag
  | .scalar x, .scalar y => .scalar (x * y)
  | .scalar x, .arr ys => .arr (ys.map (x * ·))
  | .arr xs, .scalar y => .arr (xs.map (· * y))
  | .arr xs, .arr ys => .arr (List.zipWith (· * ·) xs ys)

/-- Backend elementwise division with scalar broadcasting. -/
def Mag.div : Mag → Mag → Mag
  | .scalar x, .scalar y => .scalar (x / y)
  | .scalar x, .arr ys => .arr (ys.map (x / ·))
  | .arr xs, .scalar y => .arr (xs.map (· / y))
  | .arr xs, .arr ys => .arr (List.zipWith (· / ·) xs ys)

/-- Backend elementwise strict comparison (scalar case; arrays compare
pointwise and conjoin, as a reduction of the backend's boolean array). -/
def Mag.lt : Mag → Mag → Bool
  | .scalar x, .scalar y => decide (x < y)
  | .scalar x, .arr ys => ys.all fun y => decide (x < y)
  | .arr xs, .scalar y => xs.all fun x => decide (x < y)
  | .arr xs, .arr ys => (List.zipWith (fun x y => decide (x < y)) xs ys).all id

/-- Backend elementwise equality test (scalar case; arrays compare
pointwise and conjoin, as a reduction of the backend's boolean array). -/
def Mag.eqv : Mag → Mag → Bool
  | .scalar x, .scalar y => decide (x = y)
  | .scalar x, .arr ys => ys.all fun y => decide (x = y)
  | .arr xs, .scalar y => xs.all fun x => decide (x = y)
  | .arr xs, .arr ys => (List.zipWith (fun x y => decide (x = y)) xs ys).all id

/-- Modelled from the spec: the `Quantity` class of the core library — a
numeric payload paired with one shared dimension.  As the notebooks show
(`500 * ms` displays as `0.5 … second`), the magnitude is stored in base
SI units. -/
structure Quantity where
  mag : Mag
  dim : Dimension
deriving DecidableEq, Repr

/-- A bare number is treated as a dimensionless quantity at every API
boundary. -/
def numToQ (x : ℚ) : Quantity := ⟨.scalar x, Dimension.none⟩

/-- Modelled from the spec: `Quantity.__add__` — requires equal
dimensions, fails with a dimension mismatch carrying both dimensions, and
the result keeps the left operand's dimension. -/
def qadd (a b : Quantity) : Except UnitError Quantity :=
  if a.dim = b.dim then .ok ⟨a.mag.add b.mag, a.dim⟩
  else .error (.dimMismatch a.dim b.dim)

/-- Modelled from the spec: `Quantity.__sub__`, same dimension rule as
addition. -/
def qsub (a b : Quantity) : Except UnitError Quantity :=
  if a.dim = b.dim then .ok ⟨a.mag.sub b.mag, a.dim⟩
  else .error (.dimMismatch a.dim b.dim)

/-- Modelled from the spec: `Quantity.__lt__` — comparison is permitted
only between equal-dimension quantities. -/
def qlt (a b : Quantity) : Except UnitError Bool :=
  if a.dim = b.dim then .ok (a.mag.lt b.mag)
  else .error (.dimMismatch a.dim b.dim)

/-- Modelled from the spec: `Quantity.__le__`. -/
def qle (a b : Quantity) : Except UnitError Bool :=
  if a.dim = b.dim then .ok !(b.mag.lt a.mag)
  else .error (.dimMismatch a.dim b.dim)

/-- Modelled from the spec: `Quantity.__gt__`. -/
def qgt (a b : Quantity) : Except UnitError Bool :=
  if a.dim = b.dim then .ok (b.mag.lt a.mag)
  else .error (.dimMismatch a.dim b.dim)

/-- Modelled from the spec: `Quantity.__ge__`. -/
def qge (a b : Quantity) : Except UnitError Bool :=
  if a.dim = b.dim then .ok !(a.mag.lt b.mag)
  else .error (.dimMismatch a.dim b.dim)

/-- Modelled from the spec: `Quantity.__eq__` — like the order
comparisons, equality is permitted only between equal-dimension
quantities; since magnitudes are stored in base units, comparing them
directly compares the converted numeric values. -/
def qeq (a b : Quantity) : Except UnitError Bool :=
  if a.dim = b.dim then .ok (a.mag.eqv b.mag)
  else .error (.dimMismatch a.dim b.dim)

/-- Modelled from the spec: `Quantity.__ne__`, the negation of equality
under the same dimension rule. -/
def qne (a b : Quantity) : Except UnitError Bool :=
  if a.dim = b.dim then .ok !(a.mag.eqv b.mag)
  else .error (.dimMismatch a.dim b.dim)

/-- Adding a bare number: the number is coerced to a dimensionless
quantity first. -/
def qaddNum (a : Quantity) (x : ℚ) : Except UnitError Quantity :=
  qadd a (numToQ x)

/-- Modelled from the spec: `Quantity.__mul__` — dimensions multiply
(exponent-wise sum); never fails. -/
def qmul (a b : Quantity) : Quantity :=
  ⟨a.mag.mul b.mag, a.dim.mul b.dim⟩

/-- Result of a division: either a bare backend value (when the dimension
cancels) or a quantity. -/
inductive DivResult where
  | bare (m : Mag)
  | quantity (q : Quantity)
deriving DecidableEq, Repr

/-- Modelled from the spec: `Quantity.__truediv__` — the result dimension
is the exponent-wise difference; when it is the zero vector the result is
returned as a bare backend value, not a dimensionless wrapper (the
notebook shows `A / (2 * bu.mV)` returning a plain `jax.Array`). -/
def qdiv (a b : Quantity) : DivResult :=
  let d := a.dim.div b.dim
  if d = Dimension.none then .bare (a.mag.div b.mag)
  else .quantity ⟨a.mag.div b.mag, d⟩

/-- Modelled from the spec: the `Unit` class — a named reference quantity
of magnitude one with an integer base-ten scale exponent; its effective
conversion factor is `10^scale`. -/
structure Unit where
  dim : Dimension
  scale : ℤ
  name : String
  symbol : String
deriving DecidableEq, Repr

/-- The effective multiplicative factor of a unit, `10^scale`. -/
def Unit.factor (u : Unit) : ℚ := (10 : ℚ) ^ u.scale

/-- Modelled from the spec: `Unit.create(dimension, name, symbol)` —
registers a new unit at scale 0. -/
def Unit.create (d : Dimension) (name symbol : String) : Unit :=
  ⟨d, 0, name, symbol⟩

/-- Modelled from the spec: the fixed SI prefix table, yocto = −24 through
yotta = +24, symbols as in the standard-units notebook. -/
def siScaleTable : List (String × ℤ) :=
  [("Y", 24), ("Z", 21), ("E", 18), ("P", 15), ("T", 12), ("G", 9),
   ("M", 6), ("k", 3), ("h", 2), ("da", 1), ("d", -1), ("c", -2),
   ("m", -3), ("u", -6), ("n", -9), ("p", -12), ("f", -15), ("a", -18),
   ("z", -21), ("y", -24)]

/-- Look up a prefix symbol's power-of-ten exponent in the fixed table. -/
def lookupScale (sym : String) : Option ℤ :=
  (siScaleTable.find? fun p => p.1 = sym).map Prod.snd

/-- Modelled from the spec: `Unit.create_scaled_unit(baseunit,
scalefactor)` — looks up the prefix exponent, adds it to the base unit's
scale, keeps the dimension, decorates the name and symbol; an
unrecognized symbol is an invalid-prefix condition. -/
def Unit.create_scaled_unit (baseunit : Unit) (scalefactor : String) :
    Except UnitError Unit :=
  match lookupScale scalefactor with
  | some e =>
    .ok ⟨baseunit.dim, baseunit.scale + e,
         scalefactor ++ baseunit.name, scalefactor ++ baseunit.symbol⟩
  | Option.none => .error (.invalidScaleSymbol scalefactor)

/-- Modelled from the spec: unit multiplication — scales add, dimensions
multiply, the result is an unnamed compound unit. -/
def Unit.umul (u v : Unit) : Unit :=
  ⟨u.dim.mul v.dim, u.scale + v.scale,
   u.name ++ " * " ++ v.name, u.symbol ++ " * " ++ v.symbol⟩

/-- Modelled from the spec: unit division — scales subtract, dimensions
divide. -/
def Unit.udiv (u v : Unit) : Unit :=
  ⟨u.dim.div v.dim, u.scale - v.scale,
   u.name ++ " / " ++ v.name, u.symbol ++ " / " ++ v.symbol⟩

/-- Modelled from the spec: unit power — scale multiplies, dimension
exponents scale. -/
def Unit.upow (u : Unit) (n : ℤ) : Unit :=
  ⟨u.dim.pow (n : ℚ), u.scale * n, u.name ++ " ^ n", u.symbol ++ " ^ n"⟩

/-- Modelled from the spec: `Unit.__eq__` — two units are equal iff they
have the same dimension and the same effective multiplicative factor,
independent of display name. -/
def Unit.ueq (u v : Unit) : Bool :=
  decide (u.dim = v.dim) && decide (u.factor = v.factor)

/-- Implicit construction `x * u → Quantity`: the magnitude is stored in
base SI units, so the unit's factor is applied at construction (the
notebooks show `500 * ms` holding the value `0.5` at dimension second). -/
def quantityOf (x : ℚ) (u : Unit) : Quantity :=
  ⟨.scalar (x * u.factor), u.dim⟩

/-- Render a rational the way the notebooks print float values: an
integral value keeps a trailing dot (`3.`), a non-integral value is shown
as a fraction. -/
def showVal (q : ℚ) : String :=
  if q.den = 1 then toString q.num ++ "." else
    toString q.num ++ "/" ++ toString q.den

/-- Render one base-quantity factor of a symbolic dimension string. -/
def renderDimPart (sym : String) (e : ℚ) : String :=
  if e = 0 then "" else " " ++ sym ++ "^" ++ toString e.num ++
    (if e.den = 1 then "" else "/" ++ toString e.den)

/-- Symbolic render of a dimension, `m^a kg^b …`, the fallback display
when no registered unit matches. -/
def renderDim (d : Dimension) : String :=
  String.trim (renderDimPart "m" d.m ++ renderDimPart "kg" d.kg ++
    renderDimPart "s" d.s ++ renderDimPart "A" d.A ++
    renderDimPart "K" d.K ++ renderDimPart "mol" d.mol ++
    renderDimPart "cd" d.cd)

/-- Render a payload: scalars as `showVal`, arrays bracketed. -/
def renderMag : Mag → String
  | .scalar x => showVal x
  | .arr xs => "[" ++ String.intercalate ", " (xs.map showVal) ++ "]"

/-- Modelled from the spec: the value part of `in_unit` — the quantity's
base-unit magnitude divided by the target unit's factor. -/
def inUnitVal (q : Quantity) (u : Unit) : Except UnitError Mag :=
  if q.dim = u.dim then .ok (q.mag.div (.scalar u.factor))
  else .error (.dimMismatch q.dim u.dim)

/-- Modelled from the spec: `in_unit(quantity, target_unit)` — requires
equal dimension, divides the magnitude by the target's factor, renders
`"<value> <symbol>"`. -/
def in_unit (q : Quantity) (u : Unit) : Except UnitError String :=
  (inUnitVal q u).map fun m => renderMag m ++ " " ++ u.symbol

/-- The representative concrete value of a payload used by the best-unit
search (arrays are represented by their largest absolute element, the
empty array by 1). -/
def repVal : Mag → ℚ
  | .scalar x => |x|
  | .arr xs => xs.foldl (fun acc x => max acc |x|) 0

/-- The best-unit search's figure of merit at converted magnitude `c`:
`max |c| |c|⁻¹`, the monotone image `10^|log10 c|` of the absolute
log10-distance of `c` from 1, kept rational so it is exactly computable. -/
def logDist (c : ℚ) : ℚ := max |c| |c|⁻¹

/-- The figure of merit of displaying base magnitude `m` in unit `u`. -/
def unitDist (m : ℚ) (u : Unit) : ℚ := logDist (m / u.factor)

/-- Modelled from the spec: the selection loop of `in_best_unit` — keep
the best candidate so far, replace it on a strictly smaller log-distance,
or on an equal distance when the challenger has scale 0 and the holder
does not; otherwise earlier registration wins. -/
def chooseBest (m : ℚ) : Unit → List Unit → Unit
  | best, [] => best
  | best, u :: rest =>
    if unitDist m u < unitDist m best ∨
        (unitDist m u = unitDist m best ∧ u.scale = 0 ∧ best.scale ≠ 0)
    then chooseBest m u rest
    else chooseBest m best rest

/-- Modelled from the spec: `in_best_unit(quantity)` — searches the
registered units sharing the quantity's dimension, picks the one
minimizing the absolute log10-distance of the converted magnitude from 1
(ties: scale 0 first, then registration order), and renders the converted
value with its symbol; with no matching registered unit it falls back to
symbolic rendering. -/
def in_best_unit (reg : List Unit) (q : Quantity) : String :=
  match reg.filter fun u => u.dim = q.dim with
  | [] => renderMag q.mag ++ " " ++ renderDim q.dim
  | c :: cs =>
    let b := chooseBest (repVal q.mag) c cs
    renderMag (q.mag.div (.scalar b.factor)) ++ " " ++ b.symbol

/-- Collect the scalar payloads of a list of quantities, if all are
scalars. -/
def collectScalars : List Quantity → Option (List ℚ)
  | [] => some []
  | q :: rest =>
    match q.mag with
    | .scalar x => (collectScalars rest).map (x :: ·)
    | .arr _ => Option.none

/-- Modelled from the spec: `Quantity.__init__` on a sequence of
quantities — all elements must share one dimension (heterogeneous input
is the distinct aggregation-mismatch condition, the notebook's "All
elements must have the same unit"); the magnitudes, already stored in
base units, are stacked, so the result is expressed in the common base
unit.  An empty sequence is dimensionless with an empty array payload. -/
def quantityFromList (qs : List Quantity) : Except UnitError Quantity :=
  match qs with
  | [] => .ok ⟨.arr [], Dimension.none⟩
  | q :: rest =>
    if rest.all fun r => r.dim = q.dim then
      match collectScalars (q :: rest) with
      | some xs => .ok ⟨.arr xs, q.dim⟩
      | Option.none => .error .invalidConstruction
    else .error .aggMismatch

/-- Replace the elements at the selected indices (counting from `i`) by
`v`. -/
def setWhere (sel : Nat → Bool) (v : ℚ) : Nat → List ℚ → List ℚ
  | _, [] => []
  | i, x :: xs => (if sel i then v else x) :: setWhere sel v (i + 1) xs

/-- Modelled from the spec and the quantity notebook: indexed element and
slice assignment `a[sel] = v` on an existing quantity — the assigned
value's dimension must exactly match the target's, the selected positions
of the target's array payload are overwritten by the value's scalar
payload, and the updated quantity replaces the old binding (the notebook
shows `a` itself changed after `a[:6:2] = 1000 * bu.mV`).  The updated
quantity is returned as the new state of the target. -/
def setItem (a : Quantity) (sel : Nat → Bool) (v : Quantity) :
    Except UnitError Quantity :=
  if v.dim = a.dim then
    match a.mag, v.mag with
    | .arr xs, .scalar x => .ok ⟨.arr (setWhere sel x 0 xs), a.dim⟩
    | _, _ => .error .invalidConstruction
  else .error (.dimMismatch v.dim a.dim)

/-- The length base unit, `Unit.create(get_or_create_dimension(m=1),
"metre", "m")` as in the mechanism notebook. -/
def metre : Unit := Unit.create ⟨1, 0, 0, 0, 0, 0, 0⟩ "metre" "m"

/-- The time base unit. -/
def second : Unit := Unit.create ⟨0, 0, 1, 0, 0, 0, 0⟩ "second" "s"

/-- The current base unit. -/
def ampere : Unit := Unit.create ⟨0, 0, 0, 1, 0, 0, 0⟩ "amp" "A"

/-- The mass base unit (brainunit's base mass unit is the kilogram at
scale 0). -/
def kilogram : Unit := Unit.create ⟨0, 1, 0, 0, 0, 0, 0⟩ "kilogram" "kg"

/-- The volt, `Unit.create(get_or_create_dimension(m=2, kg=1, s=-3,
A=-1), "volt", "V")` as in the mechanism notebook. -/
def volt : Unit := Unit.create ⟨2, 1, -3, -1, 0, 0, 0⟩ "volt" "V"

/-- The millivolt, the "m"-scaled volt. -/
def mvolt : Unit := ⟨volt.dim, -3, "mvolt", "mV"⟩

/-- The kilovolt, the "k"-scaled volt. -/
def kvolt : Unit := ⟨volt.dim, 3, "kvolt", "kV"⟩

/-- The millisecond, the "m"-scaled second (`bu.ms`). -/
def msecond : Unit := ⟨second.dim, -3, "msecond", "ms"⟩

/-- The squared metre (`bu.meter2`). -/
def meter2 : Unit := Unit.upow metre 2

/-- The cubed second (`bu.second3`). -/
def second3 : Unit := Unit.upow second 3

/-- The unit registry consulted by the formatter, in registration
order. -/
def stdUnits : List Unit :=
  [metre, second, ampere, kilogram, volt, mvolt, kvolt, msecond]

theorem lookupDim_append_self (reg : DimRegistry) (d : Dimension)
    (h : lookupDim reg d = Option.none) :
    lookupDim (reg ++ [d]) d = some reg.length := by
  induction reg with
  | nil => simp [lookupDim]
  | cons e rest ih =>
    simp only [lookupDim] at h ⊢
    by_cases he : e = d
    · simp [he] at h
    · simp only [he, if_false] at h
      cases hrec : lookupDim rest d with
      | none => simp [he, ih hrec]
      | some j => simp [hrec] at h

theorem lookupDim_mem_eq (reg : DimRegistry) (d : Dimension) (i : Nat)
    (h : lookupDim reg d = some i) : reg.get? i = some d := by
  induction reg generalizing i with
  | nil => simp [lookupDim] at h
  | cons e rest ih =>
    simp only [lookupDim] at h
    by_cases he : e = d
    · simp only [he, if_true] at h
      cases h
      simpa using he
    · simp only [he, if_false] at h
      cases hrec : lookupDim rest d with
      | none => simp [hrec] at h
      | some j =>
        simp only [hrec, Option.map_some] at h
        cases h
        simpa using ih j hrec

/-- Calling `get_or_create_dimension` a second time with the same tuple
hits the cache: the handle is the same and the registry does not grow. -/
theorem get_or_create_idem (reg : DimRegistry) (d : Dimension) :
    get_or_create_dimension (get_or_create_dimension reg d).2.2 d =
      get_or_create_dimension reg d := by
  unfold get_or_create_dimension
  cases h : lookupDim reg d with
  | none =>
    simp only [h, lookupDim_append_self reg d h]
    have : (reg ++ [d]).getD reg.length d = d := by
      simp [List.getD, List.getElem?_append_right (Nat.le_refl reg.length)]
    simp [this]
  | some i => simp [h]

/-- The canonical instance handed out by the registry has the requested
exponents: interning never changes the value. -/
theorem get_or_create_val (reg : DimRegistry) (d : Dimension) :
    (get_or_create_dimension reg d).2.1 = d := by
  unfold get_or_create_dimension
  cases h : lookupDim reg d with
  | none => simp
  | some i =>
    have hget := lookupDim_mem_eq reg d i h
    simp [List.getD, List.get?_eq_getElem?] at hget ⊢
    simp [hget]

theorem logDist_of_one_le (c : ℚ) (h : 1 ≤ c) : logDist c = c := by
  rw [logDist, abs_of_pos (lt_of_lt_of_le one_pos h)]
  exact max_eq_left ((inv_le_one_of_one_le₀ h).trans h)

theorem logDist_of_le_one (c : ℚ) (h0 : 0 < c) (h : c ≤ 1) :
    logDist c = c⁻¹ := by
  rw [logDist, abs_of_pos h0]
  exact max_eq_right (h.trans ((one_le_inv₀ h0).mpr h))

theorem unitDist3_volt : unitDist 3 volt = 3 := by
  have h : (3 : ℚ) / volt.factor = 3 := by
    norm_num [volt, Unit.create, Unit.factor]
  rw [unitDist, h, logDist_of_one_le _ (by norm_num)]

theorem unitDist3_mvolt : unitDist 3 mvolt = 3000 := by
  have h : (3 : ℚ) / mvolt.factor = 3000 := by
    norm_num [mvolt, volt, Unit.create, Unit.factor]
  rw [unitDist, h, logDist_of_one_le _ (by norm_num)]

theorem unitDist3_kvolt : unitDist 3 kvolt = 1000 / 3 := by
  have h : (3 : ℚ) / kvolt.factor = 3 / 1000 := by
    norm_num [kvolt, volt, Unit.create, Unit.factor]
  rw [unitDist, h, logDist_of_le_one _ (by norm_num) (by norm_num)]
  norm_num

theorem unitDistSmall_volt : unitDist (3 / 1000) volt = 1000 / 3 := by
  have h : (3 / 1000 : ℚ) / volt.factor = 3 / 1000 := by
    norm_num [volt, Unit.create, Unit.factor]
  rw [unitDist, h, logDist_of_le_one _ (by norm_num) (by norm_num)]
  norm_num

theorem unitDistSmall_mvolt : unitDist (3 / 1000) mvolt = 3 := by
  have h : (3 / 1000 : ℚ) / mvolt.factor = 3 := by
    norm_num [mvolt, volt, Unit.create, Unit.factor]
  rw [unitDist, h, logDist_of_one_le _ (by norm_num)]

theorem unitDistSmall_kvolt : unitDist (3 / 1000) kvolt = 1000000 / 3 := by
  have h : (3 / 1000 : ℚ) / kvolt.factor = 3 / 1000000 := by
    norm_num [kvolt, volt, Unit.create, Unit.factor]
  rw [unitDist, h, logDist_of_le_one _ (by norm_num) (by norm_num)]
  norm_num

/-- A unit's factor is never zero. -/
theorem factor_ne_zero (u : Unit) : u.factor ≠ 0 :=
  zpow_ne_zero _ (by norm_num)

/-- The selection loop returns one of its candidates and minimizes the
log-distance figure of merit over all of them. -/
theorem chooseBest_min (m : ℚ) (b : Unit) (us : List Unit) :
    chooseBest m b us ∈ b :: us ∧
    unitDist m (chooseBest m b us) ≤ unitDist m b ∧
    ∀ u ∈ us, unitDist m (chooseBest m b us) ≤ unitDist m u := by
  induction us generalizing b with
  | nil => simp [chooseBest]
  | cons u rest ih =>
    rw [chooseBest]
    by_cases hc : unitDist m u < unitDist m b ∨
        (unitDist m u = unitDist m b ∧ u.scale = 0 ∧ b.scale ≠ 0)
    · rw [if_pos hc]
      obtain ⟨hmem, hle, hall⟩ := ih u
      have hub : unitDist m u ≤ unitDist m b := by
        rcases hc with h | ⟨h, _⟩
        · exact le_of_lt h
        · exact le_of_eq h
      refine ⟨?_, hle.trans hub, ?_⟩
      · rcases List.mem_cons.mp hmem with h | h
        · exact List.mem_cons.mpr (Or.inr (List.mem_cons.mpr (Or.inl h)))
        · exact List.mem_cons.mpr (Or.inr (List.mem_cons.mpr (Or.inr h)))
      · intro v hv
        rcases List.mem_cons.mp hv with h | h
        · exact h ▸ hle
        · exact hall v h
    · rw [if_neg hc]
      obtain ⟨hmem, hle, hall⟩ := ih b
      push_neg at hc
      have hbu : unitDist m b ≤ unitDist m u := hc.1
      refine ⟨?_, hle, ?_⟩
      · rcases List.mem_cons.mp hmem with h | h
        · exact List.mem_cons.mpr (Or.inl h)
        · exact List.mem_cons.mpr (Or.inr (List.mem_cons.mpr (Or.inr h)))
      · intro v hv
        rcases List.mem_cons.mp hv with h | h
        · exact h ▸ hle.trans hbu
        · exact hall v h

/-- Positions the selector does not pick are left unchanged by
`setWhere`. -/
theorem setWhere_get_of_not_sel (sel : Nat → Bool) (v : ℚ) :
    ∀ (xs : List ℚ) (n i : Nat), sel (n + i) = false →
      (setWhere sel v n xs).get? i = xs.get? i := by
  intro xs
  induction xs with
  | nil => intro n i _; rfl
  | cons x rest ih =>
    intro n i hsel
    cases i with
    | zero =>
      simp only [setWhere, List.get?]
      rw [if_neg]
      simp only [Nat.add_zero] at hsel
      simp [hsel]
    | succ j =>
      simp only [setWhere, List.get?]
      apply ih (n + 1) j
      have harith : n + 1 + j = n + (j + 1) := by omega
      rw [harith]
      exact hsel

theorem inBest_3V : in_best_unit stdUnits (quantityOf 3 volt) = "3. V" := by
  have hrep : repVal (quantityOf 3 volt).mag = 3 := by
    have : (3 : ℚ) * volt.factor = 3 := by
      norm_num [volt, Unit.create, Unit.factor]
    simp only [repVal, quantityOf, this]
    norm_num
  have hcb : chooseBest 3 volt [mvolt, kvolt] = volt := by
    rw [chooseBest, if_neg, chooseBest, if_neg, chooseBest]
    · rw [unitDist3_volt, unitDist3_kvolt]
      norm_num
    · rw [unitDist3_volt, unitDist3_mvolt]
      norm_num
  have hfil :
      stdUnits.filter (fun u => u.dim = (quantityOf 3 volt).dim) =
        [volt, mvolt, kvolt] := by rfl
  rw [in_best_unit, hfil, hrep]
  show renderMag ((quantityOf 3 volt).mag.div
      (Mag.scalar (chooseBest 3 volt [mvolt, kvolt]).factor)) ++ " " ++
      (chooseBest 3 volt [mvolt, kvolt]).symbol = "3. V"
  rw [hcb]
  have hval : (3 : ℚ) * volt.factor / volt.factor = 3 := by
    norm_num [volt, Unit.create, Unit.factor]
  show renderMag (.scalar (3 * volt.factor / volt.factor)) ++ " " ++
      volt.symbol = "3. V"
  rw [hval]
  rfl

theorem inBest_3mV :
    in_best_unit stdUnits (quantityOf (3 / 1000) volt) = "3. mV" := by
  have hrep : repVal (quantityOf (3 / 1000) volt).mag = 3 / 1000 := by
    have : (3 / 1000 : ℚ) * volt.factor = 3 / 1000 := by
      norm_num [volt, Unit.create, Unit.factor]
    simp only [repVal, quantityOf, this]
    norm_num
  have hcb : chooseBest (3 / 1000) volt [mvolt, kvolt] = mvolt := by
    rw [chooseBest, if_pos, chooseBest, if_neg, chooseBest]
    · rw [unitDistSmall_mvolt, unitDistSmall_kvolt]
      norm_num
    · rw [unitDistSmall_volt, unitDistSmall_mvolt]
      norm_num
  have hfil :
      stdUnits.filter (fun u => u.dim = (quantityOf (3 / 1000) volt).dim) =
        [volt, mvolt, kvolt] := by rfl
  rw [in_best_unit, hfil, hrep]
  show renderMag ((quantityOf (3 / 1000) volt).mag.div
      (Mag.scalar (chooseBest (3 / 1000) volt [mvolt, kvolt]).factor)) ++
      " " ++ (chooseBest (3 / 1000) volt [mvolt, kvolt]).symbol = "3. mV"
  rw [hcb]
  have hval : (3 / 1000 : ℚ) * volt.factor / mvolt.factor = 3 := by
    norm_num [volt, mvolt, Unit.create, Unit.factor]
  show renderMag (.scalar ((3 / 1000) * volt.factor / mvolt.factor)) ++
      " " ++ mvolt.symbol = "3. mV"
  rw [hval]
  rfl

/-- C1: calling `get_or_create_dimension` twice with the same exponent
tuple returns the identical shared instance (same handle, registry
unchanged), and the product of the interned dimensions for `d1` and `d2`
equals the interned dimension of the exponent-wise sum `d1+d2`, across
the threaded registry state. -/
theorem claim_C1 (reg : DimRegistry) (d1 d2 : Dimension) :
    get_or_create_dimension (get_or_create_dimension reg d1).2.2 d1 =
      get_or_create_dimension reg d1 ∧
    Dimension.mul (get_or_create_dimension reg d1).2.1
        (get_or_create_dimension
          (get_or_create_dimension reg d1).2.2 d2).2.1 =
      (get_or_create_dimension
        (get_or_create_dimension
          (get_or_create_dimension reg d1).2.2 d2).2.2
        (Dimension.add d1 d2)).2.1 := by
  refine ⟨get_or_create_idem reg d1, ?_⟩
  rw [get_or_create_val, get_or_create_val, get_or_create_val]
  rfl

/-- C2: addition, subtraction and the six comparison operators
(`<, <=, >, >=, ==, !=`) on quantities fail with a dimension mismatch
carrying both operand dimensions whenever the dimensions differ (a bare
numeric operand counting as dimensionless), and succeed with result
dimension `a.dim` when they agree. -/
theorem claim_C2 (a b : Quantity) :
    (a.dim ≠ b.dim →
      qadd a b = .error (.dimMismatch a.dim b.dim) ∧
      qsub a b = .error (.dimMismatch a.dim b.dim) ∧
      qlt a b = .error (.dimMismatch a.dim b.dim) ∧
      qle a b = .error (.dimMismatch a.dim b.dim) ∧
      qgt a b = .error (.dimMismatch a.dim b.dim) ∧
      qge a b = .error (.dimMismatch a.dim b.dim) ∧
      qeq a b = .error (.dimMismatch a.dim b.dim) ∧
      qne a b = .error (.dimMismatch a.dim b.dim)) ∧
    (∀ x : ℚ, a.dim ≠ Dimension.none →
      qaddNum a x = .error (.dimMismatch a.dim Dimension.none)) ∧
    (a.dim = b.dim →
      (∃ r, qadd a b = .ok r ∧ r.dim = a.dim) ∧
      (∃ s, qsub a b = .ok s ∧ s.dim = a.dim)) := by
  refine ⟨fun h => ?_, fun x h => ?_, fun h => ?_⟩
  · simp [qadd, qsub, qlt, qle, qgt, qge, qeq, qne, h]
  · simp [qaddNum, qadd, numToQ, h]
  · exact ⟨⟨⟨a.mag.add b.mag, a.dim⟩, by simp [qadd, h], rfl⟩,
      ⟨⟨a.mag.sub b.mag, a.dim⟩, by simp [qsub, h], rfl⟩⟩

/-- C2 witness: mass plus current fails carrying both dimensions (the
notebook's `3 * bu.kgram + 3 * bu.amp`), metre compared to second fails
for `<` and for `==`, and equal-dimension addition keeps the
dimension. -/
theorem claim_C2_witness :
    qadd (quantityOf 3 kilogram) (quantityOf 3 ampere) =
      .error (.dimMismatch kilogram.dim ampere.dim) ∧
    qlt (quantityOf 1 metre) (quantityOf 50 second) =
      .error (.dimMismatch metre.dim second.dim) ∧
    qeq (quantityOf 1 metre) (quantityOf 50 second) =
      .error (.dimMismatch metre.dim second.dim) ∧
    (∃ r, qadd (quantityOf 1 second) (quantityOf 1 second) = .ok r ∧
      r.dim = second.dim) :=
  ⟨((claim_C2 (quantityOf 3 kilogram) (quantityOf 3 ampere)).1
      (by decide)).1,
   (((claim_C2 (quantityOf 1 metre) (quantityOf 50 second)).1
      (by decide)).2.2.1),
   (((claim_C2 (quantityOf 1 metre) (quantityOf 50 second)).1
      (by decide)).2.2.2.2.2.2.1),
   ((claim_C2 (quantityOf 1 second) (quantityOf 1 second)).2.2 rfl).1⟩

/-- C3: whenever the dimension of a quotient cancels to the zero vector —
in particular for `q / q` — the division returns a bare backend value,
never a dimensionless wrapper. -/
theorem claim_C3 (a b : Quantity) :
    (a.dim.div b.dim = Dimension.none →
      qdiv a b = .bare (a.mag.div b.mag)) ∧
    qdiv a a = .bare (a.mag.div a.mag) := by
  constructor
  · intro h
    simp [qdiv, h]
  · have h : a.dim.div a.dim = Dimension.none := by
      simp [Dimension.div, Dimension.none]
    simp [qdiv, h]

/-- C3 witness: dividing two metre quantities produces the bare value. -/
theorem claim_C3_witness :
    (quantityOf 2 metre).dim.div (quantityOf 1 metre).dim =
      Dimension.none ∧
    qdiv (quantityOf 2 metre) (quantityOf 1 metre) =
      .bare ((quantityOf 2 metre).mag.div (quantityOf 1 metre).mag) :=
  ⟨by simp [quantityOf, metre, Unit.create, Dimension.div, Dimension.none],
   (claim_C3 (quantityOf 2 metre) (quantityOf 1 metre)).1
     (by simp [quantityOf, metre, Unit.create, Dimension.div,
       Dimension.none])⟩

/-- C4: `create_scaled_unit` keeps the base dimension and adds the
prefix's power-of-ten exponent from the fixed table (which spans yocto
−24 through yotta +24) to the scale; the kilo-scaled metre divided by the
metre is the bare number 1000. -/
theorem claim_C4 (base : Unit) (sym : String) (e : ℤ) :
    (lookupScale sym = some e →
      Unit.create_scaled_unit base sym =
        .ok ⟨base.dim, base.scale + e, sym ++ base.name,
          sym ++ base.symbol⟩) ∧
    (lookupScale sym = Option.none →
      Unit.create_scaled_unit base sym =
        .error (.invalidScaleSymbol sym)) ∧
    lookupScale "y" = some (-24) ∧ lookupScale "Y" = some 24 ∧
    (∀ ku, Unit.create_scaled_unit metre "k" = .ok ku →
      qdiv (quantityOf 1 ku) (quantityOf 1 metre) =
        .bare (.scalar 1000)) := by
  refine ⟨fun h => ?_, fun h => ?_, rfl, rfl, fun ku h => ?_⟩
  · rw [Unit.create_scaled_unit, h]
  · rw [Unit.create_scaled_unit, h]
  · have hk : Unit.create_scaled_unit metre "k" =
        .ok ⟨metre.dim, 3, "kmetre", "km"⟩ := rfl
    rw [hk] at h
    injection h with h
    subst h
    have hd : (quantityOf 1 ⟨metre.dim, 3, "kmetre", "km"⟩).dim.div
        (quantityOf 1 metre).dim = Dimension.none := by
      simp [quantityOf, metre, Unit.create, Dimension.div, Dimension.none]
    simp only [qdiv, hd, if_pos rfl]
    show DivResult.bare (Mag.div
        (.scalar (1 * Unit.factor ⟨metre.dim, 3, "kmetre", "km"⟩))
        (.scalar (1 * metre.factor))) = .bare (.scalar 1000)
    rw [Mag.div]
    norm_num [Unit.factor, metre, Unit.create]

/-- C4 witness: milli applied to the volt gives scale −3 with the same
dimension, and the scaled-metre quotient evaluates to 1000. -/
theorem claim_C4_witness :
    Unit.create_scaled_unit volt "m" =
      .ok ⟨volt.dim, 0 + (-3), "mvolt", "mV"⟩ ∧
    qdiv (quantityOf 1 ⟨metre.dim, 3, "kmetre", "km"⟩)
      (quantityOf 1 metre) = .bare (.scalar 1000) :=
  ⟨(claim_C4 volt "m" (-3)).1 rfl,
   (claim_C4 metre "k" 3).2.2.2.2 ⟨metre.dim, 3, "kmetre", "km"⟩ rfl⟩

/-- C5: unit equality holds exactly when dimension and effective factor
`10^scale` agree, independent of display name; the compound
`meter² · kilogram / (second³ · ampere)` equals the named volt. -/
theorem claim_C5 (u v : Unit) (n1 s1 n2 s2 : String) :
    (Unit.ueq u v = true ↔ u.dim = v.dim ∧ u.factor = v.factor) ∧
    Unit.ueq ⟨u.dim, u.scale, n1, s1⟩ ⟨v.dim, v.scale, n2, s2⟩ =
      Unit.ueq u v ∧
    Unit.ueq (Unit.udiv (Unit.umul meter2 kilogram)
      (Unit.umul second3 ampere)) volt = true := by
  refine ⟨by simp [Unit.ueq], rfl, ?_⟩
  simp only [Unit.ueq, Unit.udiv, Unit.umul, meter2, second3, Unit.upow,
    metre, second, ampere, kilogram, volt, Unit.create, Unit.factor,
    Dimension.div, Dimension.mul, Dimension.pow, Bool.and_eq_true,
    decide_eq_true_eq, Dimension.mk.injEq]
  norm_num

/-- C5 witness: the compound volt equality at concrete units. -/
theorem claim_C5_witness :
    Unit.ueq (Unit.udiv (Unit.umul meter2 kilogram)
      (Unit.umul second3 ampere)) volt = true :=
  (claim_C5 metre metre "" "" "" "").2.2

/-- C6: the best-unit search returns a registered unit of the quantity's
dimension minimizing the absolute log10-distance of the converted
magnitude from 1 (the rational figure of merit `max |c| |c|⁻¹` is the
monotone image `10^|log10 c|` of that distance), and with the standard
registry `3 volt` renders "3. V" while `0.003 volt` renders "3. mV". -/
theorem claim_C6 :
    (∀ (m : ℚ) (b : Unit) (us : List Unit),
      chooseBest m b us ∈ b :: us ∧
      unitDist m (chooseBest m b us) ≤ unitDist m b ∧
      ∀ u ∈ us, unitDist m (chooseBest m b us) ≤ unitDist m u) ∧
    in_best_unit stdUnits (quantityOf 3 volt) = "3. V" ∧
    in_best_unit stdUnits (quantityOf (3 / 1000) volt) = "3. mV" :=
  ⟨chooseBest_min, inBest_3V, inBest_3mV⟩

/-- C6 witness: the selection over the volt-dimension candidates at
magnitude 3 is a candidate and beats the millivolt. -/
theorem claim_C6_witness :
    chooseBest 3 volt [mvolt, kvolt] ∈ [volt, mvolt, kvolt] ∧
    unitDist 3 (chooseBest 3 volt [mvolt, kvolt]) ≤ unitDist 3 mvolt ∧
    in_best_unit stdUnits (quantityOf 3 volt) = "3. V" :=
  ⟨(claim_C6.1 3 volt [mvolt, kvolt]).1,
   (claim_C6.1 3 volt [mvolt, kvolt]).2.2 mvolt (by simp),
   claim_C6.2.1⟩

/-- C7: building one quantity from `[500 ms, 1 s]` yields the values
`[0.5, 1.0]` expressed in seconds; any sequence whose elements do not
share one dimension — such as `[500 ms, 1]` — fails with the
aggregation-mismatch condition, a condition distinct from the binary
dimension mismatch. -/
theorem claim_C7 :
    quantityFromList [quantityOf 500 msecond, quantityOf 1 second] =
      .ok ⟨.arr [1 / 2, 1], second.dim⟩ ∧
    quantityFromList [quantityOf 500 msecond, numToQ 1] =
      .error .aggMismatch ∧
    (∀ (q : Quantity) (rest : List Quantity),
      (rest.all fun r => decide (r.dim = q.dim)) = false →
      quantityFromList (q :: rest) = .error .aggMismatch) ∧
    (∀ d1 d2 : Dimension,
      UnitError.aggMismatch ≠ UnitError.dimMismatch d1 d2) := by
  refine ⟨?_, rfl, fun q rest h => ?_, fun d1 d2 => by simp⟩
  · have hstep :
        quantityFromList [quantityOf 500 msecond, quantityOf 1 second] =
          .ok ⟨.arr [500 * msecond.factor, 1 * second.factor],
            second.dim⟩ := rfl
    rw [hstep]
    have h1 : (500 : ℚ) * msecond.factor = 1 / 2 := by
      norm_num [msecond, second, Unit.create, Unit.factor]
    have h2 : (1 : ℚ) * second.factor = 1 := by
      norm_num [second, Unit.create, Unit.factor]
    rw [h1, h2]
  · simp [quantityFromList, h]

/-- C7 witness: the general heterogeneity rule applied to the notebook's
failing input. -/
theorem claim_C7_witness :
    (([numToQ 1].all fun r =>
      decide (r.dim = (quantityOf 500 msecond).dim)) = false) ∧
    quantityFromList [quantityOf 500 msecond, numToQ 1] =
      .error .aggMismatch :=
  ⟨by decide,
   claim_C7.2.2.1 (quantityOf 500 msecond) [numToQ 1] (by decide)⟩

/-- C8: converting `x * u` back into unit `u` recovers exactly `x`: the
stored base magnitude `x · 10^scale` divided by the unit's factor
`10^scale` is `x`. -/
theorem claim_C8 (u : Unit) (x : ℚ) :
    inUnitVal (quantityOf x u) u = .ok (.scalar x) := by
  rw [inUnitVal, if_pos (show (quantityOf x u).dim = u.dim from rfl)]
  show Except.ok (Mag.div (.scalar (x * u.factor)) (.scalar u.factor)) =
    .ok (.scalar x)
  rw [Mag.div, mul_div_cancel_right₀ x (factor_ne_zero u)]

/-- C10: constructing a quantity from the empty sequence succeeds and
returns a dimensionless quantity with an empty array payload — the
shared-dimension requirement is vacuous and no error is raised. -/
theorem claim_C10 :
    quantityFromList [] = .ok ⟨.arr [], Dimension.none⟩ := rfl

/-- C9 counterexample: the notebook's slice assignment
`a[:6:2] = 1000 * mV` does not leave the target quantity's magnitude
unchanged, so indexed assignment is not pure with respect to its target
(shown here on the first three elements of the notebook's array). -/
theorem claim_C9_counterexample :
    setItem ⟨.arr [0, 1, 8], volt.dim⟩
        (fun i => decide (i < 6) && decide (i % 2 = 0))
        ⟨.scalar 1000, volt.dim⟩ ≠
      .ok ⟨.arr [0, 1, 8], volt.dim⟩ := by
  intro h
  rw [setItem, if_pos rfl] at h
  simp only [Except.ok.injEq, Quantity.mk.injEq] at h
  have hw : setWhere (fun i => decide (i < 6) && decide (i % 2 = 0))
      1000 0 [0, 1, 8] = [1000, 1, 1000] := by decide
  rw [hw] at h
  simp at h

/-- C9 (amended): all quantity operations construct new values, except
that indexed element/slice assignment updates the target in place: it
demands the assigned value's dimension match the target's (else a
dimension mismatch carrying both), preserves the target's dimension, and
overwrites exactly the selected positions of the magnitude, leaving
unselected positions unchanged. -/
theorem claim_C9 (a : Quantity) (sel : Nat → Bool) (v : Quantity) :
    (v.dim ≠ a.dim →
      setItem a sel v = .error (.dimMismatch v.dim a.dim)) ∧
    (∀ b, setItem a sel v = .ok b → b.dim = a.dim) ∧
    (∀ xs x, a.mag = .arr xs → v.mag = .scalar x → v.dim = a.dim →
      setItem a sel v = .ok ⟨.arr (setWhere sel x 0 xs), a.dim⟩ ∧
      ∀ i, sel i = false →
        (setWhere sel x 0 xs).get? i = xs.get? i) := by
  refine ⟨fun h => by simp [setItem, h], fun b h => ?_,
    fun xs x hxs hx hdim => ?_⟩
  · rw [setItem] at h
    by_cases hd : v.dim = a.dim
    · rw [if_pos hd] at h
      cases ha : a.mag <;> cases hv : v.mag <;> rw [ha, hv] at h <;>
        simp at h
      rw [← h]
    · rw [if_neg hd] at h
      simp at h
  · rw [setItem, if_pos hdim, hxs, hx]
    refine ⟨rfl, fun i hi => ?_⟩
    have := setWhere_get_of_not_sel sel x xs 0 i (by simpa using hi)
    exact this

/-- C9 witness: a mismatched assignment fails carrying both dimensions,
and a matching scalar assignment overwrites exactly the selected
position. -/
theorem claim_C9_witness :
    setItem ⟨.arr [0, 1, 8], volt.dim⟩ (fun i => decide (i = 0))
        ⟨.scalar 5, second.dim⟩ =
      .error (.dimMismatch second.dim volt.dim) ∧
    setItem ⟨.arr [0, 1, 8], volt.dim⟩ (fun i => decide (i = 0))
        ⟨.scalar 5, volt.dim⟩ =
      .ok ⟨.arr (setWhere (fun i => decide (i = 0)) 5 0 [0, 1, 8]),
        volt.dim⟩ ∧
    (setWhere (fun i => decide (i = 0)) 5 0 [0, 1, 8]).get? 1 =
      [0, 1, 8].get? 1 :=
  ⟨(claim_C9 ⟨.arr [0, 1, 8], volt.dim⟩ (fun i => decide (i = 0))
      ⟨.scalar 5, second.dim⟩).1 (by decide),
   ((claim_C9 ⟨.arr [0, 1, 8], volt.dim⟩ (fun i => decide (i = 0))
      ⟨.scalar 5, volt.dim⟩).2.2 [0, 1, 8] 5 rfl rfl rfl).1,
   ((claim_C9 ⟨.arr [0, 1, 8], volt.dim⟩ (fun i => decide (i = 0))
      ⟨.scalar 5, volt.dim⟩).2.2 [0, 1, 8] 5 rfl rfl rfl).2 1 rfl⟩

end Brainunit
